import Mathlib

/-
Verification of the sensor-mapping core of the weewx-mate driver
(bin/user/mate.py).  The embedding covers:
  * the flattener         MATEDriver.raw_to_sensors
  * the pattern matcher   MATEDriver._find_match / MATEDriver._part_match
    (glob semantics follow fnmatch.translate + anchored re matching)
  * the record builder    MATEDriver.sensors_to_fields
  * the retry loop        MATEDriver.genLoopPackets
  * the built-in map      MATEDriver.DEFAULT_MAP
Python dictionaries are modelled as association lists (iteration order is
the list order; assignment replaces the first binding in place, else
appends).  Python floats are modelled as rationals.  Exceptions escaping
the flattener are modelled with Except.
-/

/-- Python value as decoded from the device JSON by json.loads. -/
inductive PyVal where
  | vstr (s : String)
  | vnum (q : ℚ)
  | vbool (b : Bool)
  | vnull
  | vlist (xs : List PyVal)
  | vobj (kvs : List (String × PyVal))

/-- Python exception kinds that can escape the flattener. -/
inductive PyErr where
  | keyError (k : String)
  | valueError
  | typeError

/-- Dictionary read d[k] / d.get(k) on an association list. -/
def alookup {α : Type} (kvs : List (String × α)) (k : String) : Option α :=
  (kvs.find? (fun e => e.1 == k)).map (fun e => e.2)

/-- Dictionary assignment d[k] = v: replace the first binding of k in
place, else append at the end (Python dict insertion semantics). -/
def dinsert {α : Type} (kvs : List (String × α)) (k : String) (v : α) :
    List (String × α) :=
  match kvs with
  | [] => [(k, v)]
  | e :: rest => if e.1 = k then (k, v) :: rest else e :: dinsert rest k v

/-- Numeric value of a list of decimal digit characters. -/
def digitsVal (ds : List Char) : Nat :=
  ds.foldl (fun a c => 10 * a + (c.toNat - 48)) 0

/-- Unsigned part of Python float(s): digits with an optional single
decimal point ("248", "12.5", "5.", ".5").  Exponent and special forms,
which the device never emits, are treated as unparseable. -/
def parseFloatCore (cs : List Char) : Option ℚ :=
  let ip := cs.takeWhile (fun c => c.isDigit)
  let rest := cs.dropWhile (fun c => c.isDigit)
  match rest with
  | [] => if ip.isEmpty then none else some (mkRat (digitsVal ip : Int) 1)
  | '.' :: fp =>
    if fp.all (fun c => c.isDigit) && (!ip.isEmpty || !fp.isEmpty) then
      some (mkRat ((digitsVal ip * 10 ^ fp.length + digitsVal fp : Nat) : Int)
        (10 ^ fp.length))
    else none
  | _ => none

/-- Python float(s) on a string, with an optional leading sign. -/
def parseFloat (s : String) : Option ℚ :=
  match s.data with
  | '-' :: cs => (parseFloatCore cs).map (fun q => -q)
  | '+' :: cs => parseFloatCore cs
  | cs => parseFloatCore cs

/-- Python int(s) on a string: optional sign followed by digits only. -/
def parseInt (s : String) : Option Int :=
  match s.data with
  | '-' :: ds =>
    if !ds.isEmpty && ds.all (fun c => c.isDigit) then
      some (-(digitsVal ds : Int))
    else none
  | '+' :: ds =>
    if !ds.isEmpty && ds.all (fun c => c.isDigit) then
      some ((digitsVal ds : Int))
    else none
  | ds =>
    if !ds.isEmpty && ds.all (fun c => c.isDigit) then
      some ((digitsVal ds : Int))
    else none

/-- Python int(float): truncation toward zero. -/
def pyTrunc (q : ℚ) : Int := q.num.tdiv (q.den : Int)

/-- Python float(v): succeeds on numbers, numeric strings and bools;
ValueError / TypeError (both caught by raw_to_sensors) become none. -/
def pyFloat : PyVal → Option ℚ
  | .vstr s => parseFloat s
  | .vnum q => some q
  | .vbool b => some (if b then 1 else 0)
  | .vnull => none
  | .vlist _ => none
  | .vobj _ => none

/-- Python int(v): the uncaught conversion used for the Port field. -/
def pyInt : PyVal → Except PyErr Int
  | .vstr s =>
    match parseInt s with
    | some n => .ok n
    | none => .error .valueError
  | .vnum q => .ok (pyTrunc q)
  | .vbool b => .ok (if b then 1 else 0)
  | .vnull => .error .typeError
  | .vlist _ => .error .typeError
  | .vobj _ => .error .typeError

/-- Python s.split [on] a dot, as a list of character lists. -/
def splitDots : List Char → List (List Char)
  | [] => [[]]
  | c :: rest =>
    if c = '.' then [] :: splitDots rest
    else
      match splitDots rest with
      | [] => [[c]]
      | g :: gs => (c :: g) :: gs

/-- Python pattern.split of a string on the dot character. -/
def splitOnDot (s : String) : List String :=
  (splitDots s.data).map String.mk

/-- Membership of a character in the body of an fnmatch character class:
single characters and a-b ranges; a dash first or last is a literal. -/
def classMatch (c : Char) : List Char → Bool
  | [] => false
  | [a] => a == c
  | a :: d :: rest =>
    if d = '-' then
      match rest with
      | [] => a == c || d == c
      | b :: rest2 => (decide (a ≤ c) && decide (c ≤ b)) || classMatch c rest2
    else a == c || classMatch c (d :: rest)

/-- Scan of a class body after an opening bracket, as in fnmatch.translate:
a closing bracket in first position belongs to the body; the body ends at
the next closing bracket; with no closing bracket the scan fails and the
opening bracket is taken literally. -/
def parseClassBody (q : List Char) : Option (List Char × List Char) :=
  match q with
  | ']' :: r =>
    match r.dropWhile (fun c => c ≠ ']') with
    | ']' :: rest => some (']' :: r.takeWhile (fun c => c ≠ ']'), rest)
    | _ => none
  | _ =>
    match q.dropWhile (fun c => c ≠ ']') with
    | ']' :: rest => some (q.takeWhile (fun c => c ≠ ']'), rest)
    | _ => none

/-- Class scan including the leading negation mark. -/
def parseClass (p : List Char) : Option (Bool × List Char × List Char) :=
  match p with
  | '!' :: q => (parseClassBody q).map (fun pr => (true, pr.1, pr.2))
  | q => (parseClassBody q).map (fun pr => (false, pr.1, pr.2))

/-- Glob pattern token. -/
inductive GTok where
  | star
  | any
  | cls (neg : Bool) (cs : List Char)
  | lit (c : Char)

/-- Fuelled tokenizer of a glob pattern (the fuel only serves structural
recursion; the wrapper supplies enough for the whole pattern). -/
def tokenizeF : Nat → List Char → List GTok
  | 0, _ => []
  | _ + 1, [] => []
  | f + 1, c :: p =>
    if c = '*' then GTok.star :: tokenizeF f p
    else if c = '?' then GTok.any :: tokenizeF f p
    else if c = '[' then
      match parseClass p with
      | some (neg, cs, rest) => GTok.cls neg cs :: tokenizeF f rest
      | none => GTok.lit '[' :: tokenizeF f p
    else GTok.lit c :: tokenizeF f p

/-- Tokenization of a glob pattern, as fnmatch.translate reads it. -/
def tokenize (p : List Char) : List GTok := tokenizeF p.length p

/-- Anchored matching of a token list against a character list: star
matches any run of characters by trying every suffix of the value. -/
def tokMatch : List GTok → List Char → Bool
  | [], v => v.isEmpty
  | GTok.star :: ts, v => (v.tails).any (fun s => tokMatch ts s)
  | GTok.any :: ts, v =>
    match v with
    | [] => false
    | _ :: v2 => tokMatch ts v2
  | GTok.cls neg cs :: ts, v =>
    match v with
    | [] => false
    | c :: v2 => (classMatch c cs != neg) && tokMatch ts v2
  | GTok.lit c :: ts, v =>
    match v with
    | [] => false
    | d :: v2 => (c == d) && tokMatch ts v2

/-- Anchored whole-string glob match of pattern p against value v. -/
def globMatch (p v : List Char) : Bool := tokMatch (tokenize p) v

/-- MATEDriver._part_match: fnmatch.filter([value], pattern) nonempty. -/
def part_match (pattern value : String) : Bool :=
  globMatch pattern.data value.data

/-- Character that starts glob wildcard syntax. -/
def isWild (c : Char) : Bool := c == '*' || c == '?' || c == '['

/-- Acceptance of one key in the loop body of MATEDriver._find_match:
either the key splits into two dot-parts each glob-matched by the
corresponding pattern part, or the name part of the pattern equals the
whole key literally. -/
def keyAccept (npat ppat k : String) : Bool :=
  match splitOnDot k with
  | [nk, pk] => (part_match npat nk && part_match ppat pk) || (npat == k)
  | _ => npat == k

/-- MATEDriver._find_match: exact-match short-circuit, then the first
key accepted by the two-part glob walk; patterns that do not split into
exactly two dot-parts match nothing. -/
def find_match (pattern : String) (keylist : List String) : Option String :=
  if pattern ∈ keylist then some pattern
  else
    match splitOnDot pattern with
    | [npat, ppat] => keylist.find? (fun k => keyAccept npat ppat k)
    | _ => none

/-- Modelled from the spec: weewx.US, the fixed unit-system constant
stamped into every record.  It is defined outside this repository (in the
weewx package); only its fixedness matters here. -/
def weewxUS : ℚ := 1

/-- Entry contributed by one field of the record builder loop: the
pattern is looked up among the sample keys, and a truthy label yields
the output field name with the sample value under that label. -/
def fieldGet (pkt : List (String × PyVal)) (keys : List String)
    (np : String × String) : Option (String × PyVal) :=
  match find_match np.2 keys with
  | some label =>
    if label = "" then none
    else some (np.1, (alookup pkt label).getD PyVal.vnull)
  | none => none

/-- One field of the record builder loop: assign the looked-up value
into the packet when a truthy label came back, else leave it alone. -/
def fieldStep (pkt : List (String × PyVal)) (keys : List String)
    (acc : List (String × PyVal)) (np : String × String) :
    List (String × PyVal) :=
  match fieldGet pkt keys np with
  | some e => dinsert acc e.1 e.2
  | none => acc

/-- MATEDriver.sensors_to_fields: map sensor values to database fields;
a nonempty result is stamped with dateTime (the rounded wall-clock time,
passed here as the parameter now) and the unit-system constant. -/
def sensors_to_fields (pkt : List (String × PyVal))
    (sensor_map : Option (List (String × String))) (now : Int) :
    List (String × PyVal) :=
  match sensor_map with
  | none => pkt
  | some m =>
    let keys := pkt.map Prod.fst
    let packet := m.foldl (fieldStep pkt keys) []
    if packet.isEmpty then packet
    else dinsert (dinsert packet "dateTime" (PyVal.vnum (now : ℚ)))
      "usUnits" (PyVal.vnum weewxUS)

/-- One raw field of a port reading: Port and Dev are skipped, other
fields are stored as float under "<field>.<port>" when they convert,
and silently dropped otherwise. -/
def portEntryStep (port : Int) (a : List (String × PyVal))
    (kv : String × PyVal) : List (String × PyVal) :=
  if kv.1 = "Port" ∨ kv.1 = "Dev" then a
  else
    match pyFloat kv.2 with
    | some q => dinsert a (kv.1 ++ "." ++ toString port) (PyVal.vnum q)
    | none => a

/-- Flattening of one element of the ports list: a non-dict element or a
missing / unconvertible Port raises; otherwise every other field is fed
through portEntryStep. -/
def flattenPortInto (acc : List (String × PyVal)) :
    PyVal → Except PyErr (List (String × PyVal))
  | .vobj kvs =>
    match alookup kvs "Port" with
    | none => .error (.keyError "Port")
    | some pv =>
      match pyInt pv with
      | .error e => .error e
      | .ok port => .ok (kvs.foldl (portEntryStep port) acc)
  | .vstr _ => .error .typeError
  | .vnum _ => .error .typeError
  | .vbool _ => .error .typeError
  | .vnull => .error .typeError
  | .vlist _ => .error .typeError

/-- Flattening of the whole ports list, threading the packet through. -/
def flattenPortsInto (acc : List (String × PyVal)) :
    List PyVal → Except PyErr (List (String × PyVal))
  | [] => .ok acc
  | pd :: rest =>
    match flattenPortInto acc pd with
    | .error e => .error e
    | .ok acc2 => flattenPortsInto acc2 rest

/-- Verbatim copies of Sys_Time and Sys_Batt_V, made before the ports
walk, under the keys sys_time and sys_battery. -/
def sysEntries (dkvs : List (String × PyVal)) : List (String × PyVal) :=
  let pkt0 : List (String × PyVal) :=
    match alookup dkvs "Sys_Time" with
    | some v => dinsert [] "sys_time" v
    | none => []
  match alookup dkvs "Sys_Batt_V" with
  | some v => dinsert pkt0 "sys_battery" v
  | none => pkt0

/-- Iteration over the value found under the ports key: a list is
flattened port by port; an empty string or empty dict iterates nothing;
anything else raises TypeError (either not iterable, or its elements do
not support string indexing). -/
def portsDispatch (dkvs : List (String × PyVal)) :
    PyVal → Except PyErr (List (String × PyVal))
  | .vlist ps => flattenPortsInto (sysEntries dkvs) ps
  | .vstr s => if s = "" then .ok (sysEntries dkvs) else .error .typeError
  | .vobj kvs =>
    if kvs.isEmpty then .ok (sysEntries dkvs) else .error .typeError
  | .vnum _ => .error .typeError
  | .vbool _ => .error .typeError
  | .vnull => .error .typeError

/-- Work done on the devstatus value: a dict gets its system entries
copied and its ports list flattened (a missing ports key raises
KeyError); a non-dict devstatus raises TypeError. -/
def rawFromDevstatus : PyVal → Except PyErr (List (String × PyVal))
  | .vobj dkvs =>
    match alookup dkvs "ports" with
    | none => .error (.keyError "ports")
    | some psv => portsDispatch dkvs psv
  | .vstr _ => .error .typeError
  | .vnum _ => .error .typeError
  | .vbool _ => .error .typeError
  | .vnull => .error .typeError
  | .vlist _ => .error .typeError

/-- MATEDriver.raw_to_sensors: extract the numeric values from the raw
data.  A missing devstatus key returns the empty packet without error;
everything else is handled per devstatus value. -/
def raw_to_sensors (data : List (String × PyVal)) :
    Except PyErr (List (String × PyVal)) :=
  match alookup data "devstatus" with
  | none => .ok []
  | some ds => rawFromDevstatus ds

/-- One iteration outcome of the poll loop body: a successful
fetch-decode-map cycle carrying its (possibly empty) packet, or an
IOError from the fetch. -/
inductive Outcome where
  | ok (packet : List (String × PyVal))
  | ioErr

/-- Observable result of running the poll loop over a list of outcomes:
the packets emitted, whether RetriesExceeded was raised, and the final
consecutive-failure counter. -/
structure LoopOut where
  emitted : List (List (String × PyVal))
  raised : Bool
  ntries : Nat

/-- MATEDriver.genLoopPackets as a state machine over cycle outcomes.
The counter is incremented at the top of each iteration, reset to zero
on success, and the while-else raises RetriesExceeded exactly when the
loop condition ntries < max_tries first fails. -/
def runLoop (maxTries : Nat) : Nat → List Outcome → LoopOut
  | n, [] => if maxTries ≤ n then ⟨[], true, n⟩ else ⟨[], false, n⟩
  | n, o :: rest =>
    if maxTries ≤ n then ⟨[], true, n⟩
    else
      match o with
      | .ok p =>
        let r := runLoop maxTries 0 rest
        ⟨if p.isEmpty then r.emitted else p :: r.emitted, r.raised, r.ntries⟩
      | .ioErr => runLoop maxTries (n + 1) rest

/-- MATEDriver.DEFAULT_MAP.  The Python dict literal repeats the
battery_voltage key four times with the identical pattern Batt_V.*;
as a dict it holds that binding once. -/
def DEFAULT_MAP : List (String × String) :=
  [ ("system_battery_voltage", "Sys_Batt_V"),
    ("battery_voltage", "Batt_V.*"),
    ("buy_L1_current", "Buy_I_L1.*"),
    ("buy_L2_current", "Buy_I_L2.*"),
    ("charger_L1_current", "Chg_I_L1.*"),
    ("charger_L2_current", "Chg_I_L2.*"),
    ("inverter_L1_current", "Inv_I_L1.*"),
    ("inverter_L2_current", "Inv_I_L2.*"),
    ("sell_L1_current", "Sell_I_L1.*"),
    ("sell_L2_current", "Sell_I_L2.*"),
    ("VAC1_L1_in", "VAC1_in_L1.*"),
    ("VAC1_L2_in", "VAC1_in_L2.*"),
    ("VAC2_L1_in", "VAC2_in_L1.*"),
    ("VAC2_L2_in", "VAC2_in_L2.*"),
    ("VAC_L1_out", "VAC_out_L1.*"),
    ("VAC_L2_out", "VAC_out_L2.*"),
    ("inverter_current", "Inv_I.*"),
    ("charger_current", "Chg_I.*"),
    ("buy_current", "Buy_I.*"),
    ("sell_current", "Sell_I.*"),
    ("VAC_in", "voltage_in.*"),
    ("VAC_out", "voltage_out.*"),
    ("output_current", "Out_I.*"),
    ("input_current", "In_I.*"),
    ("input_voltage", "In_V.*"),
    ("output_energy", "Out_kWh.*"),
    ("output_capacity", "Out_AH.*"),
    ("shunt_a_current", "Shunt_A_I.*"),
    ("shunt_a_capacity", "Shunt_A_AH.*"),
    ("shunt_a_energy", "Shunt_A_kWh.*"),
    ("shunt_b_current", "Shunt_B_I.*"),
    ("shunt_b_capacity", "Shunt_B_AH.*"),
    ("shunt_b_energy", "Shunt_B_kWh.*"),
    ("shunt_c_current", "Shunt_C_I.*"),
    ("shunt_c_capacity", "Shunt_C_AH.*"),
    ("shunt_c_energy", "Shunt_C_kWh.*"),
    ("state_of_charge", "SOC.*"),
    ("state_of_charge_min", "Min_SOC.*"),
    ("days_since_full", "Days_since_full.*"),
    ("input_capacity_today", "In_AH_today.*"),
    ("output_capacity_today", "Out_AH_today.*"),
    ("input_energy_today", "In_kWh_today.*"),
    ("output_energy_today", "Out_kWh_today.*"),
    ("net_capacity", "Net_CFC_AH.*"),
    ("net_energy", "Net_CFC_kWh.*"),
    ("battery_temperature", "Batt_temp.*") ]

/-- Raw status of the end-to-end scenario of the spec. -/
def scenarioData : List (String × PyVal) :=
  [ ("devstatus", PyVal.vobj
      [ ("ports", PyVal.vlist
          [ PyVal.vobj
              [ ("Port", PyVal.vstr "1"),
                ("Dev", PyVal.vstr "CC"),
                ("Batt_V", PyVal.vstr "248"),
                ("Out_I", PyVal.vstr "12") ] ]) ]) ]

/-- Flat sample produced by the scenario raw status. -/
def scenarioPkt : List (String × PyVal) :=
  [ ("Batt_V.1", PyVal.vnum 248), ("Out_I.1", PyVal.vnum 12) ]

/-- Field map of the end-to-end scenario of the spec. -/
def scenarioMap : List (String × String) :=
  [ ("battery_voltage", "Batt_V.*"), ("output_current", "Out_I.*") ]

/-! Helper lemmas about dictionary assignment and lookup. -/

theorem dinsert_ne_nil {α : Type} (kvs : List (String × α)) (k : String)
    (v : α) : dinsert kvs k v ≠ [] := by
  cases kvs with
  | nil => simp [dinsert]
  | cons e rest =>
    by_cases h : e.1 = k <;> simp [dinsert, h]

theorem mem_dinsert {α : Type} {k : String} {v : α} {e : String × α} :
    ∀ {kvs : List (String × α)}, e ∈ dinsert kvs k v →
      e = (k, v) ∨ e ∈ kvs := by
  intro kvs
  induction kvs with
  | nil =>
    intro h
    simpa [dinsert] using h
  | cons e0 rest ih =>
    intro h
    by_cases h0 : e0.1 = k
    · rw [dinsert, if_pos h0] at h
      rcases List.mem_cons.1 h with h | h
      · exact Or.inl h
      · exact Or.inr (List.mem_cons_of_mem _ h)
    · rw [dinsert, if_neg h0] at h
      rcases List.mem_cons.1 h with h | h
      · exact Or.inr (h ▸ List.mem_cons_self _ _)
      · rcases ih h with h2 | h2
        · exact Or.inl h2
        · exact Or.inr (List.mem_cons_of_mem _ h2)

theorem alookup_cons {α : Type} (k1 : String) (v1 : α)
    (rest : List (String × α)) (k2 : String) :
    alookup ((k1, v1) :: rest) k2 =
      if k1 = k2 then some v1 else alookup rest k2 := by
  by_cases h : k1 = k2
  · simp [alookup, List.find?_cons, h]
  · simp [alookup, List.find?_cons, h]

theorem alookup_dinsert_ne {α : Type} (kvs : List (String × α))
    (k k2 : String) (v : α) (h : k2 ≠ k) :
    alookup (dinsert kvs k v) k2 = alookup kvs k2 := by
  induction kvs with
  | nil =>
    rw [show dinsert ([] : List (String × α)) k v = [(k, v)] from rfl,
      alookup_cons, if_neg (fun hk => h hk.symm)]
  | cons e rest ih =>
    obtain ⟨k1, v1⟩ := e
    by_cases h0 : k1 = k
    · rw [dinsert, if_pos h0, alookup_cons, alookup_cons,
        if_neg (fun hk => h hk.symm), if_neg (fun hk => h (h0 ▸ hk).symm)]
    · rw [dinsert, if_neg h0, alookup_cons, alookup_cons]
      by_cases h2 : k1 = k2
      · rw [if_pos h2, if_pos h2]
      · rw [if_neg h2, if_neg h2]
        exact ih

theorem dinsert_of_not_mem_key {α : Type} {kvs : List (String × α)}
    {k : String} (h : k ∉ kvs.map Prod.fst) (v : α) :
    dinsert kvs k v = kvs ++ [(k, v)] := by
  induction kvs with
  | nil => rfl
  | cons e rest ih =>
    simp only [List.map_cons, List.mem_cons] at h
    push_neg at h
    rw [dinsert, if_neg (fun he => h.1 he.symm), ih h.2]
    rfl

/-! A first-match characterization of List.find?. -/

theorem find?_eq_some_char {α : Type} (p : α → Bool) :
    ∀ (l : List α) (b : α), l.find? p = some b ↔
      ∃ l1 l2, l = l1 ++ b :: l2 ∧ p b = true ∧ ∀ x ∈ l1, p x = false := by
  intro l
  induction l with
  | nil =>
    intro b
    constructor
    · intro h; simp [List.find?] at h
    · rintro ⟨l1, l2, hl, -, -⟩
      cases l1 <;> simp at hl
  | cons a l ih =>
    intro b
    by_cases ha : p a = true
    · rw [List.find?_cons_of_pos _ ha]
      constructor
      · intro h
        injection h with h
        subst h
        exact ⟨[], l, rfl, ha, by simp⟩
      · rintro ⟨l1, l2, hl, hb, hfl⟩
        cases l1 with
        | nil =>
          simp at hl
          rw [hl.1]
        | cons x l1 =>
          simp at hl
          exact absurd (hl.1 ▸ ha) (by simp [hfl x (List.mem_cons_self x l1)])
    · rw [List.find?_cons_of_neg _ (by simpa using ha)]
      rw [ih]
      constructor
      · rintro ⟨l1, l2, hl, hb, hfl⟩
        refine ⟨a :: l1, l2, by rw [hl, List.cons_append], hb, ?_⟩
        intro x hx
        rcases List.mem_cons.1 hx with hx | hx
        · subst hx; simpa using ha
        · exact hfl x hx
      · rintro ⟨l1, l2, hl, hb, hfl⟩
        cases l1 with
        | nil =>
          simp at hl
          exact absurd (hl.1 ▸ hb) (by simpa using ha)
        | cons x l1 =>
          simp at hl
          exact ⟨l1, l2, hl.2, hb, fun y hy => hfl y (List.mem_cons_of_mem _ hy)⟩

theorem find_match_mem {p : String} {keys : List String} {l : String}
    (h : find_match p keys = some l) : l ∈ keys := by
  unfold find_match at h
  by_cases hp : p ∈ keys
  · rw [if_pos hp] at h
    injection h with h
    exact h ▸ hp
  · rw [if_neg hp] at h
    split at h
    · exact List.mem_of_find?_eq_some h
    · exact absurd h (by simp)

/-! Glob matcher lemmas. -/

theorem tokenize_star (p : List Char) :
    tokenize ('*' :: p) = GTok.star :: tokenize p := rfl

theorem tokenize_qmark (p : List Char) :
    tokenize ('?' :: p) = GTok.any :: tokenize p := rfl

theorem tokenize_plain_cons {c : Char} (h1 : c ≠ '*') (h2 : c ≠ '?')
    (h3 : c ≠ '[') (p : List Char) :
    tokenize (c :: p) = GTok.lit c :: tokenize p := by
  show tokenizeF (p.length + 1) (c :: p) = _
  rw [tokenizeF, if_neg h1, if_neg h2, if_neg h3]
  rfl

theorem tokenize_of_plain {p : List Char}
    (h : ∀ c ∈ p, isWild c = false) : tokenize p = p.map GTok.lit := by
  induction p with
  | nil => rfl
  | cons c p ih =>
    have hc := h c (List.mem_cons_self c p)
    simp only [isWild, Bool.or_eq_false_iff, beq_eq_false_iff_ne] at hc
    rw [tokenize_plain_cons hc.1.1 hc.1.2 hc.2,
      ih (fun x hx => h x (List.mem_cons_of_mem _ hx))]
    rfl

theorem tokMatch_lits (p : List Char) :
    ∀ v, tokMatch (p.map GTok.lit) v = true ↔ v = p := by
  induction p with
  | nil =>
    intro v
    cases v <;> simp [tokMatch]
  | cons c p ih =>
    intro v
    cases v with
    | nil => simp [tokMatch]
    | cons d v2 =>
      simp only [List.map_cons, tokMatch, Bool.and_eq_true, beq_iff_eq,
        ih v2, List.cons.injEq]
      constructor
      · rintro ⟨h1, h2⟩; exact ⟨h1.symm, h2⟩
      · rintro ⟨h1, h2⟩; exact ⟨h1.symm, h2⟩

theorem globMatch_plain_iff {p v : List Char}
    (h : ∀ c ∈ p, isWild c = false) : globMatch p v = true ↔ v = p := by
  unfold globMatch
  rw [tokenize_of_plain h, tokMatch_lits]

theorem tokMatch_star_iff (ts : List GTok) (v : List Char) :
    tokMatch (GTok.star :: ts) v = true ↔
      ∃ s, s <:+ v ∧ tokMatch ts s = true := by
  simp [tokMatch, List.any_eq_true, List.mem_tails]

/-- C2: a pattern present verbatim in the key list is returned as is by
the matcher, short-circuiting before any glob evaluation. -/
theorem find_match_exact_short_circuit (p : String) (keys : List String)
    (h : p ∈ keys) : find_match p keys = some p := by
  unfold find_match
  rw [if_pos h]

/-- Witness for C2 at the instance named by the spec. -/
theorem find_match_exact_witness :
    "Sys_Batt_V" ∈ ["Sys_Batt_V"] ∧
      find_match "Sys_Batt_V" ["Sys_Batt_V"] = some "Sys_Batt_V" :=
  ⟨by decide,
    find_match_exact_short_circuit "Sys_Batt_V" ["Sys_Batt_V"] (by decide)⟩

/-- C3: for a pattern absent from the key list, a pattern that does not
split into exactly two dot-parts matches nothing; a two-part pattern
returns exactly the first key, in iteration order, that is accepted by
keyAccept (two-part glob match, or literal equality with the name part),
and none when no key is accepted. -/
theorem find_match_glob_characterization (p : String) (keys : List String)
    (hp : p ∉ keys) :
    ((splitOnDot p).length ≠ 2 → find_match p keys = none)
    ∧ (∀ np pp, splitOnDot p = [np, pp] →
        ((find_match p keys = none ↔
            ∀ k ∈ keys, keyAccept np pp k = false)
         ∧ (∀ k, find_match p keys = some k ↔
             ∃ l1 l2, keys = l1 ++ k :: l2 ∧ keyAccept np pp k = true
               ∧ ∀ x ∈ l1, keyAccept np pp x = false))) := by
  constructor
  · intro hlen
    unfold find_match
    rw [if_neg hp]
    rcases hs : splitOnDot p with - | ⟨a, - | ⟨b, - | ⟨c, rest⟩⟩⟩ <;>
      simp_all
  · intro np pp hs
    have hfm : find_match p keys = keys.find? (fun k => keyAccept np pp k) := by
      unfold find_match
      rw [if_neg hp, hs]
    constructor
    · rw [hfm, List.find?_eq_none]
      constructor
      · intro h k hk
        have := h k hk
        simpa using this
      · intro h k hk
        simp [h k hk]
    · intro k
      rw [hfm, find?_eq_some_char]

/-- Witness for C3: the two spec examples, a first glob match and a
no-match, both via the characterization. -/
theorem find_match_glob_witness :
    find_match "Batt_V.*" ["Batt_V.1", "Batt_V.2", "In_V.1"] = some "Batt_V.1"
    ∧ find_match "Foo_Bar.*" ["Batt_V.1", "Batt_V.2", "In_V.1"] = none := by
  constructor
  · exact (((find_match_glob_characterization "Batt_V.*"
      ["Batt_V.1", "Batt_V.2", "In_V.1"] (by decide)).2 "Batt_V" "*"
      (by decide)).2 "Batt_V.1").mpr
      ⟨[], ["Batt_V.2", "In_V.1"], rfl, by decide, by simp⟩
  · exact (((find_match_glob_characterization "Foo_Bar.*"
      ["Batt_V.1", "Batt_V.2", "In_V.1"] (by decide)).2 "Foo_Bar" "*"
      (by decide)).1).mpr (by decide)

/-- C4 as amended: the part matcher is an anchored whole-string glob.  A
pattern free of wildcard syntax matches exactly the identical value, so
matching is case-sensitive at literally matched positions; a leading star
matches any run of characters including the empty run; a question mark
matches exactly one character; bracket classes select character sets and
ranges.  The original claim that a pattern differing from the value only
in letter case never matches holds for wildcard-free patterns but fails
in general (see the counterexample). -/
theorem glob_semantics_amended :
    (∀ p v : List Char, (∀ c ∈ p, isWild c = false) →
      (globMatch p v = true ↔ v = p))
    ∧ (∀ p v : List Char, globMatch ('*' :: p) v = true ↔
        ∃ s, s <:+ v ∧ tokMatch (tokenize p) s = true)
    ∧ (∀ v : List Char, globMatch ['*'] v = true)
    ∧ (∀ p v : List Char, globMatch ('?' :: p) v = true ↔
        ∃ c v2, v = c :: v2 ∧ tokMatch (tokenize p) v2 = true)
    ∧ (∀ c : Char, globMatch ['[', 'a', '-', 'z', ']'] [c] = true ↔
        ('a' ≤ c ∧ c ≤ 'z'))
    ∧ (∀ p v : List Char, (∀ c ∈ p, isWild c = false) →
        p.map Char.toLower = v.map Char.toLower → p ≠ v →
        globMatch p v = false) := by
  have hplain : ∀ p v : List Char, (∀ c ∈ p, isWild c = false) →
      (globMatch p v = true ↔ v = p) := fun p v h => globMatch_plain_iff h
  have hstar : ∀ p v : List Char, globMatch ('*' :: p) v = true ↔
      ∃ s, s <:+ v ∧ tokMatch (tokenize p) s = true := by
    intro p v
    unfold globMatch
    rw [tokenize_star, tokMatch_star_iff]
  refine ⟨hplain, hstar, ?_, ?_, ?_, ?_⟩
  · intro v
    exact (hstar [] v).mpr ⟨[], List.nil_suffix, rfl⟩
  · intro p v
    unfold globMatch
    rw [tokenize_qmark]
    cases v with
    | nil => simp [tokMatch]
    | cons c v2 =>
      simp only [tokMatch]
      constructor
      · intro h
        exact ⟨c, v2, rfl, h⟩
      · rintro ⟨c1, v21, he, h⟩
        injection he with h1 h2
        subst h2
        exact h
  · intro c
    show tokMatch [GTok.cls false ['a', '-', 'z']] [c] = true ↔ _
    simp [tokMatch, classMatch, decide_eq_true_iff]
  · intro p v h hlow hne
    cases hg : globMatch p v with
    | false => rfl
    | true => exact absurd ((hplain p v h).mp hg).symm hne

/-- Witness for C4: a case-differing literal pattern fails while the
identical literal pattern matches. -/
theorem glob_semantics_witness :
    globMatch ['A'] ['a'] = false ∧ globMatch ['B', '1'] ['B', '1'] = true :=
  ⟨glob_semantics_amended.2.2.2.2.2 ['A'] ['a'] (by decide) (by decide)
      (by decide),
    (glob_semantics_amended.1 ['B', '1'] ['B', '1'] (by decide)).mpr rfl⟩

/-- Counterexample to C4 as stated: the glob pattern differs from the
value only in the letter case of one character, yet it matches, because
the case-differing character is consumed by the star, not matched
literally. -/
theorem glob_case_fold_counterexample :
    globMatch ['[', '[', 'a', ']', '*'] ['[', '[', 'A', ']', '*'] = true
    ∧ (['[', '[', 'a', ']', '*'].map Char.toLower =
        ['[', '[', 'A', ']', '*'].map Char.toLower)
    ∧ ['[', '[', 'a', ']', '*'] ≠ ['[', '[', 'A', ']', '*'] :=
  ⟨rfl, by decide, by decide⟩

/-! Poll loop lemmas. -/

theorem runLoop_terminal (m : Nat) :
    ∀ (n : Nat) (rest : List Outcome), m ≤ n →
      runLoop m n rest = ⟨[], true, n⟩ := by
  intro n rest h
  cases rest with
  | nil => simp [runLoop, h]
  | cons o r2 => simp [runLoop, h]

theorem runLoop_raised_char (m : Nat) :
    ∀ (outs : List Outcome) (n : Nat), n < m →
      ((runLoop m n outs).raised = true ↔
        (∃ l2, outs = List.replicate (m - n) Outcome.ioErr ++ l2) ∨
        (∃ l1 l2, outs = l1 ++ List.replicate m Outcome.ioErr ++ l2)) := by
  intro outs
  induction outs with
  | nil =>
    intro n hn
    constructor
    · intro h
      exfalso
      simp [runLoop, Nat.not_le.2 hn] at h
    · rintro (⟨l2, h⟩ | ⟨l1, l2, h⟩)
      · exfalso
        rcases List.append_eq_nil.1 h.symm with ⟨h1, -⟩
        rw [List.replicate_eq_nil_iff] at h1
        omega
      · exfalso
        rcases List.append_eq_nil.1 h.symm with ⟨h1, -⟩
        rcases List.append_eq_nil.1 h1 with ⟨-, h2⟩
        rw [List.replicate_eq_nil_iff] at h2
        omega
  | cons o rest ih =>
    intro n hn
    have hm0 : 0 < m := Nat.lt_of_le_of_lt (Nat.zero_le n) hn
    cases o with
    | ok p =>
      have hred : (runLoop m n (Outcome.ok p :: rest)).raised =
          (runLoop m 0 rest).raised := by
        simp [runLoop, Nat.not_le.2 hn]
      rw [hred, ih 0 hm0]
      constructor
      · rintro (⟨l2, h⟩ | ⟨l1, l2, h⟩)
        · refine Or.inr ⟨[Outcome.ok p], l2, ?_⟩
          rw [Nat.sub_zero] at h
          rw [h]
          rfl
        · refine Or.inr ⟨Outcome.ok p :: l1, l2, ?_⟩
          rw [List.cons_append, List.cons_append, ← h]
      · rintro (⟨l2, h⟩ | ⟨l1, l2, h⟩)
        · exfalso
          obtain ⟨k, hk⟩ : ∃ k, m - n = k + 1 :=
            ⟨m - n - 1, by omega⟩
          rw [hk, List.replicate_succ, List.cons_append] at h
          injection h with h1 h2
          exact Outcome.noConfusion h1
        · cases l1 with
          | nil =>
            exfalso
            obtain ⟨k, hk⟩ : ∃ k, m = k + 1 := ⟨m - 1, by omega⟩
            rw [List.nil_append, hk, List.replicate_succ,
              List.cons_append] at h
            injection h with h1 h2
            exact Outcome.noConfusion h1
          | cons x l1 =>
            rw [List.cons_append, List.cons_append] at h
            injection h with h1 h2
            exact Or.inr ⟨l1, l2, h2⟩
    | ioErr =>
      have hred : runLoop m n (Outcome.ioErr :: rest) =
          runLoop m (n + 1) rest := by
        simp [runLoop, Nat.not_le.2 hn]
      rw [hred]
      by_cases hm : n + 1 < m
      · rw [ih (n + 1) hm]
        constructor
        · rintro (⟨l2, h⟩ | ⟨l1, l2, h⟩)
          · refine Or.inl ⟨l2, ?_⟩
            have hmn : m - n = (m - (n + 1)) + 1 := by omega
            rw [hmn, List.replicate_succ, List.cons_append, h]
          · refine Or.inr ⟨Outcome.ioErr :: l1, l2, ?_⟩
            rw [List.cons_append, List.cons_append, ← h]
        · rintro (⟨l2, h⟩ | ⟨l1, l2, h⟩)
          · have hmn : m - n = (m - (n + 1)) + 1 := by omega
            rw [hmn, List.replicate_succ, List.cons_append] at h
            injection h with h1 h2
            exact Or.inl ⟨l2, h2⟩
          · cases l1 with
            | nil =>
              obtain ⟨k, hk⟩ : ∃ k, m = k + 1 := ⟨m - 1, by omega⟩
              rw [List.nil_append, hk, List.replicate_succ,
                List.cons_append] at h
              injection h with h1 h2
              refine Or.inl
                ⟨List.replicate (k - (m - (n + 1))) Outcome.ioErr ++ l2, ?_⟩
              rw [h2, ← List.append_assoc, ← List.replicate_add,
                (by omega : (m - (n + 1)) + (k - (m - (n + 1))) = k)]
            | cons x l1 =>
              rw [List.cons_append, List.cons_append] at h
              injection h with h1 h2
              exact Or.inr ⟨l1, l2, h2⟩
      · have hm1 : m ≤ n + 1 := Nat.not_lt.1 hm
        rw [runLoop_terminal m (n + 1) rest hm1]
        constructor
        · intro _
          refine Or.inl ⟨rest, ?_⟩
          rw [(by omega : m - n = 1)]
          rfl
        · intro _
          rfl

theorem runLoop_reset (m : Nat) (hm : 0 < m) (p : List (String × PyVal)) :
    ∀ (l : List Outcome) (n : Nat),
      (runLoop m n (l ++ [Outcome.ok p])).raised = false →
      (runLoop m n (l ++ [Outcome.ok p])).ntries = 0 := by
  intro l
  induction l with
  | nil =>
    intro n h
    by_cases hn : m ≤ n
    · rw [List.nil_append, runLoop_terminal m n _ hn] at h
      simp at h
    · rw [List.nil_append] at h ⊢
      simp [runLoop, hn, Nat.not_le.2 hm]
  | cons o l ih =>
    intro n h
    rw [List.cons_append] at h ⊢
    by_cases hn : m ≤ n
    · rw [runLoop_terminal m n _ hn] at h
      simp at h
    · cases o with
      | ok p2 =>
        simp only [runLoop, if_neg hn] at h ⊢
        exact ih 0 h
      | ioErr =>
        simp only [runLoop, if_neg hn] at h ⊢
        exact ih (n + 1) h

/-- C7: with a positive max_tries bound, the loop raises RetriesExceeded
exactly when the outcome stream contains max_tries consecutive transient
failures, never after fewer; the counter is reset to zero by every
successful cycle; and once the bound is reached the loop is terminal,
raising exactly once whatever outcomes remain. -/
theorem poll_loop_retry_bound (m : Nat) (hm : 0 < m) (outs : List Outcome) :
    ((runLoop m 0 outs).raised = true ↔
      ∃ l1 l2, outs = l1 ++ List.replicate m Outcome.ioErr ++ l2)
    ∧ (∀ (l : List Outcome) (p : List (String × PyVal)),
        (runLoop m 0 (l ++ [Outcome.ok p])).raised = false →
        (runLoop m 0 (l ++ [Outcome.ok p])).ntries = 0)
    ∧ (∀ (n : Nat) (rest : List Outcome), m ≤ n →
        runLoop m n rest = ⟨[], true, n⟩) := by
  refine ⟨?_, fun l p => runLoop_reset m hm p l 0,
    fun n rest h => runLoop_terminal m n rest h⟩
  rw [runLoop_raised_char m outs 0 hm]
  constructor
  · rintro (⟨l2, h⟩ | h)
    · refine ⟨[], l2, ?_⟩
      rw [Nat.sub_zero] at h
      simpa using h
    · exact h
  · intro h
    exact Or.inr h

/-- Witness for C7: with max_tries 2, two consecutive transient failures
raise, and a success resets the counter. -/
theorem poll_loop_retry_witness :
    (runLoop 2 0 [Outcome.ioErr, Outcome.ioErr]).raised = true ∧
      (runLoop 2 0
        [Outcome.ioErr, Outcome.ok [("a", PyVal.vnull)]]).ntries = 0 := by
  constructor
  · exact ((poll_loop_retry_bound 2 (by decide)
      [Outcome.ioErr, Outcome.ioErr]).1).mpr ⟨[], [], rfl⟩
  · exact (poll_loop_retry_bound 2 (by decide) []).2.1
      [Outcome.ioErr] [("a", PyVal.vnull)] rfl

/-- C1: the end-to-end scenario of the spec: flattening the raw status
gives the flat sample with Batt_V.1 = 248 and Out_I.1 = 12, and record
building over it yields battery_voltage 248, output_current 12, the
dateTime stamp (the wall-clock parameter) and the usUnits constant, and
nothing else. -/
theorem mate_end_to_end_record (now : Int) :
    raw_to_sensors scenarioData = .ok scenarioPkt
    ∧ sensors_to_fields scenarioPkt (some scenarioMap) now =
      [ ("battery_voltage", PyVal.vnum 248),
        ("output_current", PyVal.vnum 12),
        ("dateTime", PyVal.vnum (now : ℚ)),
        ("usUnits", PyVal.vnum weewxUS) ] :=
  ⟨rfl, rfl⟩

/-! Shape of the entries produced by the flattener. -/

theorem sysEntries_mem {dkvs : List (String × PyVal)} {e : String × PyVal}
    (h : e ∈ sysEntries dkvs) :
    e.1 = "sys_time" ∨ e.1 = "sys_battery" := by
  unfold sysEntries at h
  cases h1 : alookup dkvs "Sys_Time" with
  | none =>
    cases h2 : alookup dkvs "Sys_Batt_V" with
    | none => simp [h1, h2] at h
    | some v =>
      simp only [h1, h2] at h
      rcases mem_dinsert h with h3 | h3
      · exact Or.inr (by rw [h3])
      · simp at h3
  | some v =>
    cases h2 : alookup dkvs "Sys_Batt_V" with
    | none =>
      simp only [h1, h2] at h
      rcases mem_dinsert h with h3 | h3
      · exact Or.inl (by rw [h3])
      · simp at h3
    | some v2 =>
      simp only [h1, h2] at h
      rcases mem_dinsert h with h3 | h3
      · exact Or.inr (by rw [h3])
      · rcases mem_dinsert h3 with h4 | h4
        · exact Or.inl (by rw [h4])
        · simp at h4

theorem portEntryStep_fold_mem (port : Int) :
    ∀ (kvs : List (String × PyVal)) (acc : List (String × PyVal))
      (e : String × PyVal), e ∈ kvs.foldl (portEntryStep port) acc →
      e ∈ acc ∨ ∃ (f : String) (q : ℚ), e.1 = f ++ "." ++ toString port ∧ f ≠ "Port" ∧
        f ≠ "Dev" ∧ e.2 = PyVal.vnum q := by
  intro kvs
  induction kvs with
  | nil =>
    intro acc e h
    exact Or.inl h
  | cons kv rest ih =>
    intro acc e h
    rw [List.foldl_cons] at h
    rcases ih _ e h with h2 | h2
    · unfold portEntryStep at h2
      by_cases hpd : kv.1 = "Port" ∨ kv.1 = "Dev"
      · rw [if_pos hpd] at h2
        exact Or.inl h2
      · rw [if_neg hpd] at h2
        push_neg at hpd
        cases hq : pyFloat kv.2 with
        | none =>
          rw [hq] at h2
          exact Or.inl h2
        | some q =>
          rw [hq] at h2
          rcases mem_dinsert h2 with h3 | h3
          · refine Or.inr ⟨kv.1, q, by rw [h3], hpd.1, hpd.2, by rw [h3]⟩
          · exact Or.inl h3
    · exact Or.inr h2

theorem flattenPortInto_ok_mem {acc acc2 : List (String × PyVal)}
    {pd : PyVal} (h : flattenPortInto acc pd = .ok acc2) :
    ∀ e ∈ acc2, e ∈ acc ∨ ∃ (f : String) (port : Int) (q : ℚ),
      e.1 = f ++ "." ++ toString port ∧ f ≠ "Port" ∧ f ≠ "Dev" ∧
      e.2 = PyVal.vnum q := by
  intro e he
  cases pd with
  | vobj kvs =>
    rw [show flattenPortInto acc (PyVal.vobj kvs) =
        (match alookup kvs "Port" with
          | none => .error (.keyError "Port")
          | some pv =>
            match pyInt pv with
            | .error er => .error er
            | .ok port => .ok (kvs.foldl (portEntryStep port) acc))
      from rfl] at h
    split at h
    · exact absurd h (by simp)
    · split at h
      · exact absurd h (by simp)
      · rename_i pv heqP port heqI
        injection h with h
        rcases portEntryStep_fold_mem port kvs acc e (h ▸ he) with h2 | h2
        · exact Or.inl h2
        · obtain ⟨f, q, h3, h4, h5, h6⟩ := h2
          exact Or.inr ⟨f, port, q, h3, h4, h5, h6⟩
  | vstr s => simp [flattenPortInto] at h
  | vnum q => simp [flattenPortInto] at h
  | vbool b => simp [flattenPortInto] at h
  | vnull => simp [flattenPortInto] at h
  | vlist xs => simp [flattenPortInto] at h

theorem flattenPortsInto_mem :
    ∀ (ps : List PyVal) (acc pkt : List (String × PyVal)),
      flattenPortsInto acc ps = .ok pkt →
      ∀ e ∈ pkt, e ∈ acc ∨ ∃ (f : String) (port : Int) (q : ℚ),
        e.1 = f ++ "." ++ toString port ∧ f ≠ "Port" ∧ f ≠ "Dev" ∧
        e.2 = PyVal.vnum q := by
  intro ps
  induction ps with
  | nil =>
    intro acc pkt h e he
    simp only [flattenPortsInto] at h
    injection h with h
    exact Or.inl (h ▸ he)
  | cons pd rest ih =>
    intro acc pkt h e he
    rw [flattenPortsInto] at h
    cases hfp : flattenPortInto acc pd with
    | error er =>
      rw [hfp] at h
      exact absurd h (by simp)
    | ok acc2 =>
      rw [hfp] at h
      rcases ih acc2 pkt h e he with h2 | h2
      · exact flattenPortInto_ok_mem hfp e h2
      · exact Or.inr h2

theorem raw_to_sensors_entries (data pkt : List (String × PyVal))
    (h : raw_to_sensors data = .ok pkt) :
    ∀ e ∈ pkt, e.1 = "sys_time" ∨ e.1 = "sys_battery" ∨
      ∃ (f : String) (port : Int) (q : ℚ), e.1 = f ++ "." ++ toString port ∧ f ≠ "Port" ∧
        f ≠ "Dev" ∧ e.2 = PyVal.vnum q := by
  intro e he
  unfold raw_to_sensors at h
  cases hds : alookup data "devstatus" with
  | none =>
    rw [hds] at h
    injection h with h
    exact absurd he (by rw [← h]; simp)
  | some ds =>
    rw [hds] at h
    simp only [] at h
    cases ds with
    | vobj dkvs =>
      rw [show rawFromDevstatus (PyVal.vobj dkvs) =
          (match alookup dkvs "ports" with
            | none => .error (.keyError "ports")
            | some psv => portsDispatch dkvs psv) from rfl] at h
      cases hp : alookup dkvs "ports" with
      | none =>
        rw [hp] at h
        exact absurd h (by simp)
      | some psv =>
        rw [hp] at h
        simp only [] at h
        cases psv with
        | vlist ps =>
          rw [show portsDispatch dkvs (PyVal.vlist ps) =
              flattenPortsInto (sysEntries dkvs) ps from rfl] at h
          rcases flattenPortsInto_mem ps (sysEntries dkvs) pkt h e he
            with h2 | h2
          · rcases sysEntries_mem h2 with h3 | h3
            · exact Or.inl h3
            · exact Or.inr (Or.inl h3)
          · exact Or.inr (Or.inr h2)
        | vstr s =>
          rw [show portsDispatch dkvs (PyVal.vstr s) =
              (if s = "" then .ok (sysEntries dkvs) else
                .error .typeError) from rfl] at h
          by_cases hs : s = ""
          · rw [if_pos hs] at h
            injection h with h
            rcases sysEntries_mem (h ▸ he) with h3 | h3
            · exact Or.inl h3
            · exact Or.inr (Or.inl h3)
          · rw [if_neg hs] at h
            exact absurd h (by simp)
        | vobj kvs =>
          rw [show portsDispatch dkvs (PyVal.vobj kvs) =
              (if kvs.isEmpty then .ok (sysEntries dkvs) else
                .error .typeError) from rfl] at h
          by_cases hs : kvs.isEmpty = true
          · rw [if_pos hs] at h
            injection h with h
            rcases sysEntries_mem (h ▸ he) with h3 | h3
            · exact Or.inl h3
            · exact Or.inr (Or.inl h3)
          · rw [if_neg hs] at h
            exact absurd h (by simp)
        | vnum q => exact absurd h (by simp [portsDispatch])
        | vbool b => exact absurd h (by simp [portsDispatch])
        | vnull => exact absurd h (by simp [portsDispatch])
    | vstr s => exact absurd h (by simp [rawFromDevstatus])
    | vnum q => exact absurd h (by simp [rawFromDevstatus])
    | vbool b => exact absurd h (by simp [rawFromDevstatus])
    | vnull => exact absurd h (by simp [rawFromDevstatus])
    | vlist xs => exact absurd h (by simp [rawFromDevstatus])

/-- C5 as amended: every flat-sample entry other than the verbatim
sys_time / sys_battery copies carries a composite key "<field>.<port>"
with the field neither Port nor Dev and a float value; and a port whose
only extra field is non-numeric flattens to an empty sample without
error, the unconvertible value being silently dropped. -/
theorem flat_sample_entries_amended (data pkt : List (String × PyVal))
    (h : raw_to_sensors data = .ok pkt) :
    (∀ e ∈ pkt, e.1 = "sys_time" ∨ e.1 = "sys_battery" ∨
      ∃ (f : String) (port : Int) (q : ℚ), e.1 = f ++ "." ++ toString port ∧ f ≠ "Port" ∧
        f ≠ "Dev" ∧ e.2 = PyVal.vnum q)
    ∧ raw_to_sensors [("devstatus", PyVal.vobj [("ports", PyVal.vlist
        [PyVal.vobj [("Dev", PyVal.vstr "FX"), ("Port", PyVal.vnum 1),
          ("Label", PyVal.vstr "abc")]])])] = .ok [] :=
  ⟨raw_to_sensors_entries data pkt h, rfl⟩

/-- Witness for C5 at the scenario sample: its first entry has the
composite-key float shape. -/
theorem flat_sample_entries_witness :
    ("Batt_V.1", PyVal.vnum 248).1 = "sys_time" ∨
      ("Batt_V.1", PyVal.vnum 248).1 = "sys_battery" ∨
      ∃ (f : String) (port : Int) (q : ℚ), ("Batt_V.1", PyVal.vnum 248).1 =
          f ++ "." ++ toString port ∧ f ≠ "Port" ∧ f ≠ "Dev" ∧
        ("Batt_V.1", PyVal.vnum 248).2 = PyVal.vnum q :=
  (flat_sample_entries_amended scenarioData scenarioPkt rfl).1
    ("Batt_V.1", PyVal.vnum 248) (List.mem_cons_self _ _)

/-- Counterexample to C5 as stated: a raw status carrying Sys_Batt_V
produces a flat-sample entry sys_battery whose key has no dot (so is not
of the composite form) and whose value is the raw string, not a float. -/
theorem flat_sample_sys_entry_counterexample :
    raw_to_sensors [("devstatus", PyVal.vobj
      [("Sys_Batt_V", PyVal.vstr "248"), ("ports", PyVal.vlist [])])] =
      .ok [("sys_battery", PyVal.vstr "248")]
    ∧ "sys_battery".data.contains '.' = false :=
  ⟨rfl, by decide⟩

/-- C6 as amended: an object without the devstatus key flattens to the
empty sample without exception, but an object whose devstatus lacks the
ports list raises KeyError, a port entry without a Port field raises
KeyError, and a non-numeric Port raises ValueError — all uncaught. -/
theorem flattener_error_amended :
    (∀ data : List (String × PyVal), alookup data "devstatus" = none →
      raw_to_sensors data = .ok [])
    ∧ raw_to_sensors [("devstatus", PyVal.vobj [])] =
        .error (PyErr.keyError "ports")
    ∧ raw_to_sensors [("devstatus", PyVal.vobj
        [("ports", PyVal.vlist [PyVal.vobj []])])] =
        .error (PyErr.keyError "Port")
    ∧ raw_to_sensors [("devstatus", PyVal.vobj
        [("ports", PyVal.vlist [PyVal.vobj
          [("Port", PyVal.vstr "abc")]])])] = .error PyErr.valueError := by
  refine ⟨?_, rfl, rfl, rfl⟩
  intro data h
  unfold raw_to_sensors
  rw [h]

/-- Witness for C6: a status without devstatus yields the empty sample. -/
theorem flattener_error_witness :
    raw_to_sensors [("foo", PyVal.vnull)] = .ok [] :=
  flattener_error_amended.1 [("foo", PyVal.vnull)] rfl

/-- Counterexample to C6 as stated: a decoded object whose devstatus is
present but lacks the ports list makes the flattener raise (KeyError)
instead of returning a partial mapping. -/
theorem flattener_missing_ports_counterexample :
    raw_to_sensors [("devstatus", PyVal.vobj [("Sys_Time", PyVal.vstr "t")])]
      = .error (PyErr.keyError "ports") := rfl

/-! Record builder lemmas. -/

theorem fold_fieldStep_ne_nil (pkt : List (String × PyVal))
    (keys : List String) :
    ∀ (m : List (String × String)) (acc : List (String × PyVal)),
      acc ≠ [] → m.foldl (fieldStep pkt keys) acc ≠ [] := by
  intro m
  induction m with
  | nil =>
    intro acc h
    simpa using h
  | cons np rest ih =>
    intro acc h
    rw [List.foldl_cons]
    apply ih
    unfold fieldStep
    cases hg : fieldGet pkt keys np with
    | none => exact h
    | some e => exact dinsert_ne_nil _ _ _

theorem fold_fieldStep_empty_iff (pkt : List (String × PyVal))
    (hk : ∀ k ∈ pkt.map Prod.fst, k ≠ "") :
    ∀ m : List (String × String),
      m.foldl (fieldStep pkt (pkt.map Prod.fst)) [] = [] ↔
        ∀ np ∈ m, find_match np.2 (pkt.map Prod.fst) = none := by
  intro m
  induction m with
  | nil => simp
  | cons np rest ih =>
    rw [List.foldl_cons]
    cases hfm : find_match np.2 (pkt.map Prod.fst) with
    | none =>
      have hstep : fieldStep pkt (pkt.map Prod.fst) [] np = [] := by
        simp [fieldStep, fieldGet, hfm]
      rw [hstep, ih]
      constructor
      · intro h np2 hnp2
        rcases List.mem_cons.1 hnp2 with h2 | h2
        · rw [h2]
          exact hfm
        · exact h np2 h2
      · intro h np2 hnp2
        exact h np2 (List.mem_cons_of_mem _ hnp2)
    | some label =>
      have hne : label ≠ "" := hk label (find_match_mem hfm)
      have hstep : fieldStep pkt (pkt.map Prod.fst) [] np =
          dinsert [] np.1 ((alookup pkt label).getD PyVal.vnull) := by
        simp [fieldStep, fieldGet, hfm, hne]
      rw [hstep]
      constructor
      · intro h
        exact absurd h
          (fold_fieldStep_ne_nil pkt _ rest _ (dinsert_ne_nil _ _ _))
      · intro h
        exact absurd ((h np (List.mem_cons_self np rest)).symm.trans hfm)
          (by simp)

/-- C8: the record builder returns the empty record (no timestamp, no
unit stamp) exactly when no pattern of the field map matches any key of
the sample (sample keys are nonempty strings, as the flattener
guarantees); and an empty packet is silently skipped by the poll loop:
nothing is emitted and nothing is raised. -/
theorem record_builder_empty (pkt : List (String × PyVal))
    (fm : List (String × String)) (now : Int)
    (hk : ∀ k ∈ pkt.map Prod.fst, k ≠ "") :
    (sensors_to_fields pkt (some fm) now = [] ↔
      ∀ np ∈ fm, find_match np.2 (pkt.map Prod.fst) = none)
    ∧ (∀ m : Nat, 0 < m → runLoop m 0 [Outcome.ok []] = ⟨[], false, 0⟩) := by
  constructor
  · simp only [sensors_to_fields]
    by_cases hp : fm.foldl (fieldStep pkt (pkt.map Prod.fst)) [] = []
    · rw [if_pos (by simpa using hp)]
      rw [fold_fieldStep_empty_iff pkt hk fm]
    · rw [if_neg (by simpa using hp)]
      constructor
      · intro h
        exact absurd h (dinsert_ne_nil _ _ _)
      · intro h
        exact absurd ((fold_fieldStep_empty_iff pkt hk fm).mpr h) hp
  · intro m hm
    simp [runLoop, Nat.not_le.2 hm]

/-- Witness for C8: a sample whose single key no pattern matches gives
the empty record. -/
theorem record_builder_empty_witness :
    sensors_to_fields [("Batt_V.1", PyVal.vnum 248)]
      (some [("foo", "Foo_Bar.*")]) 0 = [] :=
  (record_builder_empty [("Batt_V.1", PyVal.vnum 248)]
    [("foo", "Foo_Bar.*")] 0 (by decide)).1.mpr (by decide)

/-! Order independence of the record builder. -/

theorem fieldGet_fst {pkt : List (String × PyVal)} {keys : List String}
    {np : String × String} {e : String × PyVal}
    (h : fieldGet pkt keys np = some e) : e.1 = np.1 := by
  unfold fieldGet at h
  split at h
  · split at h
    · exact absurd h (by simp)
    · injection h with h
      rw [← h]
  · exact absurd h (by simp)

theorem fieldStep_of_none {pkt : List (String × PyVal)} {keys : List String}
    {acc : List (String × PyVal)} {np : String × String}
    (h : fieldGet pkt keys np = none) :
    fieldStep pkt keys acc np = acc := by
  unfold fieldStep
  rw [h]

theorem fieldStep_of_some {pkt : List (String × PyVal)} {keys : List String}
    {acc : List (String × PyVal)} {np : String × String}
    {e : String × PyVal} (h : fieldGet pkt keys np = some e) :
    fieldStep pkt keys acc np = dinsert acc e.1 e.2 := by
  unfold fieldStep
  rw [h]

theorem fold_fieldStep_filterMap (pkt : List (String × PyVal))
    (keys : List String) :
    ∀ (m : List (String × String)) (acc : List (String × PyVal)),
      (∀ np ∈ m, np.1 ∉ acc.map Prod.fst) → (m.map Prod.fst).Nodup →
      m.foldl (fieldStep pkt keys) acc =
        acc ++ m.filterMap (fieldGet pkt keys) := by
  intro m
  induction m with
  | nil =>
    intro acc hdisj hnd
    simp
  | cons np rest ih =>
    intro acc hdisj hnd
    rw [List.map_cons, List.nodup_cons] at hnd
    rw [List.foldl_cons]
    cases hg : fieldGet pkt keys np with
    | none =>
      rw [fieldStep_of_none hg, List.filterMap_cons_none hg]
      exact ih acc (fun np2 h2 => hdisj np2 (List.mem_cons_of_mem _ h2))
        hnd.2
    | some e =>
      rw [fieldStep_of_some hg, List.filterMap_cons_some hg]
      have he1 : e.1 = np.1 := fieldGet_fst hg
      have hnp1 : e.1 ∉ acc.map Prod.fst := by
        rw [he1]
        exact hdisj np (List.mem_cons_self np rest)
      rw [dinsert_of_not_mem_key hnp1 e.2]
      have hcond : ∀ np2 ∈ rest,
          np2.1 ∉ (acc ++ [(e.1, e.2)]).map Prod.fst := by
        intro np2 h2
        rw [List.map_append]
        intro hmem
        rcases List.mem_append.1 hmem with h3 | h3
        · exact hdisj np2 (List.mem_cons_of_mem _ h2) h3
        · simp only [List.map_cons, List.map_nil, List.mem_singleton] at h3
          refine hnd.1 ?_
          rw [← he1, ← h3]
          exact List.mem_map_of_mem Prod.fst h2
      rw [ih (acc ++ [(e.1, e.2)]) hcond hnd.2]
      simp

theorem filterMap_fieldGet_keys_sublist (pkt : List (String × PyVal))
    (keys : List String) :
    ∀ m : List (String × String),
      List.Sublist ((m.filterMap (fieldGet pkt keys)).map Prod.fst)
        (m.map Prod.fst) := by
  intro m
  induction m with
  | nil => simp
  | cons np rest ih =>
    cases hg : fieldGet pkt keys np with
    | none =>
      rw [List.filterMap_cons_none hg, List.map_cons]
      exact ih.trans (List.sublist_cons_self _ _)
    | some e =>
      rw [List.filterMap_cons_some hg, List.map_cons, List.map_cons,
        fieldGet_fst hg]
      exact ih.cons₂ np.1

/-- C9: for field maps holding the same pairs in different iteration
orders (and with distinct output fields not named dateTime or usUnits,
as Python dict keys are), the record builder produces the same output
record up to entry order, and every output field is written at most
once. -/
theorem record_builder_order_independent (pkt : List (String × PyVal))
    (m1 m2 : List (String × String)) (now : Int) (hperm : m1.Perm m2)
    (hnd : (m1.map Prod.fst).Nodup)
    (hd : "dateTime" ∉ m1.map Prod.fst)
    (hu : "usUnits" ∉ m1.map Prod.fst) :
    (sensors_to_fields pkt (some m1) now).Perm
      (sensors_to_fields pkt (some m2) now)
    ∧ ((sensors_to_fields pkt (some m1) now).map Prod.fst).Nodup := by
  have hnd2 : (m2.map Prod.fst).Nodup := (hperm.map Prod.fst).nodup hnd
  have h1 : m1.foldl (fieldStep pkt (pkt.map Prod.fst)) [] =
      m1.filterMap (fieldGet pkt (pkt.map Prod.fst)) := by
    simpa using fold_fieldStep_filterMap pkt (pkt.map Prod.fst) m1 []
      (by simp) hnd
  have h2 : m2.foldl (fieldStep pkt (pkt.map Prod.fst)) [] =
      m2.filterMap (fieldGet pkt (pkt.map Prod.fst)) := by
    simpa using fold_fieldStep_filterMap pkt (pkt.map Prod.fst) m2 []
      (by simp) hnd2
  have hpermF : (m1.filterMap (fieldGet pkt (pkt.map Prod.fst))).Perm
      (m2.filterMap (fieldGet pkt (pkt.map Prod.fst))) :=
    hperm.filterMap _
  simp only [sensors_to_fields]
  rw [h1, h2]
  by_cases hb : m1.filterMap (fieldGet pkt (pkt.map Prod.fst)) = []
  · have hb2 : m2.filterMap (fieldGet pkt (pkt.map Prod.fst)) = [] := by
      have hx := hpermF
      rw [hb] at hx
      exact hx.symm.eq_nil
    rw [hb, hb2]
    exact ⟨List.Perm.refl _, by simp⟩
  · have hb2 : m2.filterMap (fieldGet pkt (pkt.map Prod.fst)) ≠ [] := by
      intro hc
      rw [hc] at hpermF
      exact hb hpermF.eq_nil
    rw [if_neg (by simpa using hb), if_neg (by simpa using hb2)]
    have hsub1 := filterMap_fieldGet_keys_sublist pkt (pkt.map Prod.fst) m1
    have hsub2 := filterMap_fieldGet_keys_sublist pkt (pkt.map Prod.fst) m2
    have hd2 : "dateTime" ∉ m2.map Prod.fst :=
      fun hc => hd ((hperm.map Prod.fst).mem_iff.2 hc)
    have hu2 : "usUnits" ∉ m2.map Prod.fst :=
      fun hc => hu ((hperm.map Prod.fst).mem_iff.2 hc)
    have hdP1 : "dateTime" ∉
        (m1.filterMap (fieldGet pkt (pkt.map Prod.fst))).map Prod.fst :=
      fun hc => hd (hsub1.subset hc)
    have hdP2 : "dateTime" ∉
        (m2.filterMap (fieldGet pkt (pkt.map Prod.fst))).map Prod.fst :=
      fun hc => hd2 (hsub2.subset hc)
    have huP1 : "usUnits" ∉
        ((m1.filterMap (fieldGet pkt (pkt.map Prod.fst))) ++
          [("dateTime", PyVal.vnum (now : ℚ))]).map Prod.fst := by
      rw [List.map_append]
      intro hc
      rcases List.mem_append.1 hc with h3 | h3
      · exact hu (hsub1.subset h3)
      · simp only [List.map_cons, List.map_nil, List.mem_singleton] at h3
        exact absurd h3 (by decide)
    have huP2 : "usUnits" ∉
        ((m2.filterMap (fieldGet pkt (pkt.map Prod.fst))) ++
          [("dateTime", PyVal.vnum (now : ℚ))]).map Prod.fst := by
      rw [List.map_append]
      intro hc
      rcases List.mem_append.1 hc with h3 | h3
      · exact hu2 (hsub2.subset h3)
      · simp only [List.map_cons, List.map_nil, List.mem_singleton] at h3
        exact absurd h3 (by decide)
    rw [dinsert_of_not_mem_key hdP1 _, dinsert_of_not_mem_key hdP2 _,
      dinsert_of_not_mem_key huP1 _, dinsert_of_not_mem_key huP2 _]
    constructor
    · exact (hpermF.append_right _).append_right _
    · rw [List.map_append, List.map_append]
      have hnodP1 : ((m1.filterMap
          (fieldGet pkt (pkt.map Prod.fst))).map Prod.fst).Nodup :=
        hnd.sublist hsub1
      refine List.Nodup.append (List.Nodup.append hnodP1 (by simp) ?_)
        (by simp) ?_
      · intro a ha hb3
        simp only [List.map_cons, List.map_nil, List.mem_singleton] at hb3
        rw [hb3] at ha
        exact hdP1 ha
      · intro a ha hb3
        simp only [List.map_cons, List.map_nil, List.mem_singleton] at hb3
        rw [hb3] at ha
        exact huP1 (by rw [List.map_append]; exact ha)

/-- Witness for C9: swapping the two scenario map entries leaves the
record the same up to entry order. -/
theorem record_builder_order_witness :
    (sensors_to_fields scenarioPkt (some scenarioMap) 0).Perm
      (sensors_to_fields scenarioPkt (some
        [("output_current", "Out_I.*"), ("battery_voltage", "Batt_V.*")])
        0) :=
  (record_builder_order_independent scenarioPkt scenarioMap
    [("output_current", "Out_I.*"), ("battery_voltage", "Batt_V.*")] 0
    (by decide) (by decide) (by decide) (by decide)).1

/-! The default map never populates system_battery_voltage. -/

theorem string_append_data (a b : String) :
    (a ++ b).data = a.data ++ b.data := by
  cases a
  cases b
  rfl

theorem alookup_fold_fieldStep_none (pkt : List (String × PyVal))
    (keys : List String) (key : String) :
    ∀ (m : List (String × String)) (acc : List (String × PyVal)),
      (∀ np ∈ m, np.1 = key → find_match np.2 keys = none) →
      alookup acc key = none →
      alookup (m.foldl (fieldStep pkt keys) acc) key = none := by
  intro m
  induction m with
  | nil =>
    intro acc hm hacc
    simpa using hacc
  | cons np rest ih =>
    intro acc hm hacc
    rw [List.foldl_cons]
    refine ih _ (fun np2 h2 hk => hm np2 (List.mem_cons_of_mem _ h2) hk) ?_
    cases hg : fieldGet pkt keys np with
    | none =>
      rw [fieldStep_of_none hg]
      exact hacc
    | some e =>
      rw [fieldStep_of_some hg]
      have he1 : e.1 = np.1 := fieldGet_fst hg
      have hne : key ≠ e.1 := by
        intro hc
        have hfm := hm np (List.mem_cons_self np rest)
          (by rw [← he1, ← hc])
        unfold fieldGet at hg
        rw [hfm] at hg
        simp at hg
      rw [alookup_dinsert_ne _ _ _ _ hne]
      exact hacc

theorem raw_keys_not_sysbatt (data pkt : List (String × PyVal))
    (h : raw_to_sensors data = .ok pkt) :
    "Sys_Batt_V" ∉ pkt.map Prod.fst := by
  intro hmem
  obtain ⟨e, he, he1⟩ := List.mem_map.1 hmem
  rcases raw_to_sensors_entries data pkt h e he with h1 | h1 | h1
  · exact absurd (h1.symm.trans he1) (by decide)
  · exact absurd (h1.symm.trans he1) (by decide)
  · obtain ⟨f, port, q, h2, -, -, -⟩ := h1
    have hdot : '.' ∈ (f ++ "." ++ toString port).data := by
      rw [string_append_data, string_append_data]
      exact List.mem_append.2 (Or.inl (List.mem_append.2 (Or.inr (by decide))))
    rw [← h2, he1] at hdot
    exact absurd hdot (by decide)

theorem find_match_sysbatt_none (data pkt : List (String × PyVal))
    (h : raw_to_sensors data = .ok pkt) :
    find_match "Sys_Batt_V" (pkt.map Prod.fst) = none := by
  unfold find_match
  rw [if_neg (raw_keys_not_sysbatt data pkt h)]
  rfl

/-- C10: under the built-in default map the output field
system_battery_voltage is never populated, for every raw status the
flattener accepts: flattened keys are sys_time, sys_battery or dotted
composites, so the one-part pattern Sys_Batt_V matches no key, and no
other map entry writes that output field. -/
theorem default_map_sys_batt_never_populated
    (data pkt : List (String × PyVal)) (now : Int)
    (h : raw_to_sensors data = .ok pkt) :
    find_match "Sys_Batt_V" (pkt.map Prod.fst) = none
    ∧ alookup (sensors_to_fields pkt (some DEFAULT_MAP) now)
        "system_battery_voltage" = none := by
  have hfm := find_match_sysbatt_none data pkt h
  refine ⟨hfm, ?_⟩
  simp only [sensors_to_fields]
  have hpk : alookup
      (DEFAULT_MAP.foldl (fieldStep pkt (pkt.map Prod.fst)) [])
      "system_battery_voltage" = none := by
    refine alookup_fold_fieldStep_none pkt (pkt.map Prod.fst)
      "system_battery_voltage" DEFAULT_MAP [] ?_ rfl
    intro np hnp hkey
    have hpat : np.2 = "Sys_Batt_V" := by
      have hx : ∀ np ∈ DEFAULT_MAP,
          np.1 = "system_battery_voltage" → np.2 = "Sys_Batt_V" := by decide
      exact hx np hnp hkey
    rw [hpat]
    exact hfm
  by_cases hempty :
      (DEFAULT_MAP.foldl (fieldStep pkt (pkt.map Prod.fst)) []).isEmpty = true
  · rw [if_pos hempty]
    exact hpk
  · rw [if_neg hempty]
    rw [alookup_dinsert_ne _ _ _ _ (by decide),
      alookup_dinsert_ne _ _ _ _ (by decide)]
    exact hpk

/-- Witness for C10 at the scenario raw status and sample. -/
theorem default_map_sys_batt_witness :
    alookup (sensors_to_fields scenarioPkt (some DEFAULT_MAP) 0)
      "system_battery_voltage" = none :=
  (default_map_sys_batt_never_populated scenarioData scenarioPkt 0 rfl).2
